import Mathlib

/-!
# The native methods of `MyNativeObject`

A shallow embedding of `com_matthijs_kropholler_jniarticle_MyNativeObject.cpp`:
the three native entry points `printToStdOut`, `addNumbers` and `manipulateData`,
together with the JNI functions they call.  Java strings are sequences of UTF-16
code units, native strings are sequences of bytes, and the strings crossing the
boundary are in the modified UTF-8 encoding of the JNI specification.
-/

set_option linter.unusedVariables false


/-! ## Data model -/

/-- A UTF-16 code unit, the element type of a Java string. -/
abbrev jchar := Fin 65536

/-- A `jstring` reference: `none` is `NULL`, `some s` is a `java.lang.String`
with the code units `s`. -/
abbrev jstring := Option (List jchar)

/-- A `jobject` reference: `none` is `NULL`, `some r` is the heap address `r`. -/
abbrev jobject := Option Nat

/-- A `jint`: a signed 32-bit integer. -/
abbrev jint := { x : Int // -2147483648 ≤ x ∧ x ≤ 2147483647 }

/-- The two Java classes whose instances reach the native code: the receiver
class `MyNativeObject` (no fields) and `DataObject` with its `name` field. -/
inductive JavaObject
  | MyNativeObject
  | DataObject (name : jstring)
deriving DecidableEq, Repr

/-- A `jclass` handle. -/
inductive jclass
  | MyNativeObject
  | DataObject
deriving DecidableEq, Repr

/-- A resolved `jmethodID`. -/
inductive jmethodID
  | getName
  | setName
deriving DecidableEq, Repr

/-- The explicit state the native code acts on: the text written to standard
output so far and the Java heap (an address is an index into `heap`). -/
structure World where
  stdout : List Char
  heap : List JavaObject
deriving DecidableEq, Repr

/-- The JNI environment. The JNI specification defines `NewStringUTF` on modified
UTF-8 strings only; `malformed` is the reference a given virtual machine returns
for any other C string. -/
structure JNIEnv where
  malformed : List Nat → jstring

/-- The calls `manipulateData` makes across the boundary, in the order made. -/
inductive Event
  | getName (obj : jobject)
  | GetStringUTFChars (bytes : List Nat)
  | NewStringUTF (bytes : List Nat)
  | setName (obj : jobject) (arg : jstring)
deriving DecidableEq, Repr

/-- Why a native call did not return. -/
inductive Fault
  | nullObject
  | nullMethodID
  | nullString
deriving DecidableEq, Repr

/-- The result of running `manipulateData`: the world reached, the calls made,
and the fault that stopped the call (`none` when it returned). -/
structure Outcome where
  world : World
  trace : List Event
  fault : Option Fault

/-! ## Modified UTF-8 -/

/-- The modified UTF-8 encoding of one UTF-16 code unit: one byte for
`U+0001..U+007F`, two bytes for `U+0000` and `U+0080..U+07FF`, three bytes
for `U+0800..U+FFFF` (each surrogate is encoded on its own). -/
def encodeChar (c : jchar) : List Nat :=
  if 1 ≤ c.val ∧ c.val ≤ 0x7F then [c.val]
  else if c.val ≤ 0x7FF then [0xC0 + c.val / 64, 0x80 + c.val % 64]
  else [0xE0 + c.val / 4096, 0x80 + c.val / 64 % 64, 0x80 + c.val % 64]

/-- The modified UTF-8 encoding of a Java string. -/
def encodeUTF (s : List jchar) : List Nat :=
  match s with
  | [] => []
  | c :: cs => encodeChar c ++ encodeUTF cs

/-- Decoder for modified UTF-8: `some s` on the encoding of the Java string `s`
and `none` on every byte sequence that encodes no string (see
`decodeUTF_eq_some_iff`). -/
def decodeUTF : List Nat → Option (List jchar)
  | [] => some []
  | [b] =>
    if 1 ≤ b ∧ b ≤ 0x7F then some [Fin.ofNat b] else none
  | [b, b2] =>
    if 1 ≤ b ∧ b ≤ 0x7F then (decodeUTF [b2]).map (fun s => Fin.ofNat b :: s)
    else if 0xC0 ≤ b ∧ b ≤ 0xDF ∧ 0x80 ≤ b2 ∧ b2 ≤ 0xBF ∧
        ((b - 0xC0) * 64 + (b2 - 0x80) = 0 ∨ 0x80 ≤ (b - 0xC0) * 64 + (b2 - 0x80)) then
      some [Fin.ofNat ((b - 0xC0) * 64 + (b2 - 0x80))]
    else none
  | b :: b2 :: b3 :: rest =>
    if 1 ≤ b ∧ b ≤ 0x7F then
      (decodeUTF (b2 :: b3 :: rest)).map (fun s => Fin.ofNat b :: s)
    else if 0xC0 ≤ b ∧ b ≤ 0xDF ∧ 0x80 ≤ b2 ∧ b2 ≤ 0xBF ∧
        ((b - 0xC0) * 64 + (b2 - 0x80) = 0 ∨ 0x80 ≤ (b - 0xC0) * 64 + (b2 - 0x80)) then
      (decodeUTF (b3 :: rest)).map
        (fun s => Fin.ofNat ((b - 0xC0) * 64 + (b2 - 0x80)) :: s)
    else if 0xE0 ≤ b ∧ b ≤ 0xEF ∧ 0x80 ≤ b2 ∧ b2 ≤ 0xBF ∧ 0x80 ≤ b3 ∧ b3 ≤ 0xBF ∧
        0x800 ≤ (b - 0xE0) * 4096 + (b2 - 0x80) * 64 + (b3 - 0x80) then
      (decodeUTF rest).map
        (fun s => Fin.ofNat ((b - 0xE0) * 4096 + (b2 - 0x80) * 64 + (b3 - 0x80)) :: s)
    else none

/-! ## The JNI functions and C++ library calls used by the native code -/

/-- `GetObjectClass(obj)`: the class of the object; `obj` must not be `NULL`
(`none`: the call faults). -/
def GetObjectClass (w : World) (obj : jobject) : Option jclass :=
  match obj with
  | none => none
  | some r =>
    match w.heap[r]? with
    | some JavaObject.MyNativeObject => some jclass.MyNativeObject
    | some (JavaObject.DataObject _) => some jclass.DataObject
    | none => none

/-- `GetMethodID(clazz, name, sig)`: the method of that name and signature, or
`NULL` (`none`) when the class has no such method. -/
def GetMethodID (clazz : jclass) (name sig : String) : Option jmethodID :=
  if clazz = jclass.DataObject ∧ name = "getName" ∧ sig = "()Ljava/lang/String;" then
    some jmethodID.getName
  else if clazz = jclass.DataObject ∧ name = "setName" ∧ sig = "(Ljava/lang/String;)V" then
    some jmethodID.setName
  else none

/-- Modelled from the spec: the managed-side `DataObject.getName`, which is
not among the native sources; it reads the string property `name`. -/
def DataObject_getName (o : JavaObject) : Option jstring :=
  match o with
  | JavaObject.DataObject name => some name
  | JavaObject.MyNativeObject => none

/-- Modelled from the spec: the managed-side `DataObject.setName`, which is
not among the native sources; it writes its argument to the property `name`. -/
def DataObject_setName (o : JavaObject) (name : jstring) : Option JavaObject :=
  match o with
  | JavaObject.DataObject _ => some (JavaObject.DataObject name)
  | JavaObject.MyNativeObject => none

/-- `CallObjectMethod(obj, methodID)` for a method without arguments returning
an object: here only `getName`. `none`: the call faults (`NULL` object, `NULL`
method id, or a method that is not an object-returning method of the object). -/
def CallObjectMethod (w : World) (obj : jobject) (methodID : Option jmethodID) :
    Option jstring :=
  match obj, methodID with
  | some r, some jmethodID.getName =>
    match w.heap[r]? with
    | some o => DataObject_getName o
    | none => none
  | _, _ => none

/-- `CallVoidMethod(obj, methodID, arg)` for a `void` method with one string
argument: here only `setName`. `none`: the call faults. -/
def CallVoidMethod (w : World) (obj : jobject) (methodID : Option jmethodID)
    (arg : jstring) : Option World :=
  match obj, methodID with
  | some r, some jmethodID.setName =>
    match w.heap[r]? with
    | some o =>
      match DataObject_setName o arg with
      | some o' => some { w with heap := w.heap.set r o' }
      | none => none
    | none => none
  | _, _ => none

/-- `GetStringUTFChars(string, &isCopy)`: a pointer to the NUL-terminated
modified UTF-8 encoding of the string; the string must not be `NULL`
(`none`: the call faults). -/
def GetStringUTFChars (string : jstring) : Option (List Nat) :=
  match string with
  | none => none
  | some s => some (encodeUTF s ++ [0])

/-- The bytes of a C string: everything before the first NUL byte. -/
def cstr (p : List Nat) : List Nat :=
  p.takeWhile (fun b => b != 0)

/-- `std::string(const char*)`: copies the C string the pointer refers to. -/
def std_string (p : List Nat) : List Nat :=
  cstr p

/-- `std::string::c_str()`: the content followed by a NUL byte. -/
def c_str (s : List Nat) : List Nat :=
  s ++ [0]

/-- `std::reverse(first, last)` over a whole byte string. -/
def std_reverse (s : List Nat) : List Nat :=
  s.reverse

/-- `NewStringUTF(bytes)`: the Java string whose modified UTF-8 encoding is
the C string `bytes`; when the C string is not modified UTF-8 the outcome is
the environment's. -/
def NewStringUTF (javaEnv : JNIEnv) (bytes : List Nat) : jstring :=
  match decodeUTF (cstr bytes) with
  | some s => some s
  | none => javaEnv.malformed (cstr bytes)

/-- Two's complement reduction of an integer to the `jint` range. -/
def wrap32 (x : Int) : Int :=
  (x + 2147483648) % 4294967296 - 2147483648

/-! ## The three native entry points -/

/-- `Java_..._printToStdOut`: `std::cout << "Hello from C++ !!" << std::endl`. -/
def Java_com_matthijs_kropholler_jniarticle_MyNativeObject_printToStdOut
    (javaEnv : JNIEnv) (thisJavaObject : jobject) (w : World) : World :=
  { w with stdout := w.stdout ++ ("Hello from C++ !!".toList ++ ['\n']) }

/-- `Java_..._addNumbers`: `return number1 + number2;` in 32-bit arithmetic. -/
def Java_com_matthijs_kropholler_jniarticle_MyNativeObject_addNumbers
    (javaEnv : JNIEnv) (thisJavaObject : jobject) (number1 number2 : jint) : jint :=
  ⟨wrap32 (number1.val + number2.val), by unfold wrap32; omega⟩

/-- `Java_..._manipulateData`: read the name through `getName`, convert it to a
native string, reverse that string, convert back and hand it to `setName`. -/
def Java_com_matthijs_kropholler_jniarticle_MyNativeObject_manipulateData
    (javaEnv : JNIEnv) (thisJavaObject : jobject) (myJavaDataObject : jobject)
    (w : World) : Outcome :=
  match GetObjectClass w myJavaDataObject with
  | none => ⟨w, [], some Fault.nullObject⟩
  | some myDataObjectClass =>
    let getNameMethodId := GetMethodID myDataObjectClass "getName" "()Ljava/lang/String;"
    let setNameMethodId := GetMethodID myDataObjectClass "setName" "(Ljava/lang/String;)V"
    match CallObjectMethod w myJavaDataObject getNameMethodId with
    | none => ⟨w, [], some Fault.nullMethodID⟩
    | some rawJavaString =>
      let t1 := [Event.getName myJavaDataObject]
      match GetStringUTFChars rawJavaString with
      | none => ⟨w, t1, some Fault.nullString⟩
      | some utfChars =>
        -- `std::string nativeString(utfChars);` then `ReleaseStringUTFChars`, which
        -- only frees the buffer the copy was taken from
        let nativeString := std_string utfChars
        let t2 := t1 ++ [Event.GetStringUTFChars (cstr utfChars)]
        -- `std::reverse(nativeString.begin(), nativeString.end());`
        let nativeString := std_reverse nativeString
        -- `CallVoidMethod(myJavaDataObject, setNameMethodId, NewStringUTF(nativeString.c_str()))`
        let newString := NewStringUTF javaEnv (c_str nativeString)
        let t3 := t2 ++ [Event.NewStringUTF (cstr (c_str nativeString))]
        match CallVoidMethod w myJavaDataObject setNameMethodId newString with
        | none => ⟨w, t3, some Fault.nullMethodID⟩
        | some w' =>
          ⟨w', t3 ++ [Event.setName myJavaDataObject newString], none⟩


/-! ## Derived notions used to state the properties -/

/-- The bytes `manipulateData` hands to `NewStringUTF` for the name `s`. -/
def reversedBytes (s : List jchar) : List Nat :=
  (encodeUTF s).reverse

/-- The string `manipulateData` hands to `setName` for the name `s`. -/
def newName (javaEnv : JNIEnv) (s : List jchar) : jstring :=
  match decodeUTF (reversedBytes s) with
  | some t => some t
  | none => javaEnv.malformed (reversedBytes s)

/-- The line `printToStdOut` writes: the literal followed by the line terminator
that `std::endl` inserts. -/
def helloLine : List Char :=
  "Hello from C++ !!".toList ++ ['\n']

/-- The world after successive calls of `printToStdOut`, one for each receiver
in the list. -/
def printCalls (javaEnv : JNIEnv) (receivers : List jobject) (w : World) : World :=
  receivers.foldl
    (fun acc thisJavaObject =>
      Java_com_matthijs_kropholler_jniarticle_MyNativeObject_printToStdOut javaEnv
        thisJavaObject acc)
    w

/-- An environment whose `NewStringUTF` returns `NULL` for a string that is not
modified UTF-8. -/
def rejectingEnv : JNIEnv :=
  ⟨fun _ => none⟩

/-- An environment whose `NewStringUTF` reads each byte of a string that is not
modified UTF-8 as a code unit of its own. -/
def bytewiseEnv : JNIEnv :=
  ⟨fun bytes => some (bytes.map Fin.ofNat)⟩

/-- Two calls of `manipulateData` in succession on the same data object; the
second call is made only when the first one returned. -/
def manipulateDataTwice (javaEnv : JNIEnv) (thisJavaObject myJavaDataObject : jobject)
    (w : World) : Outcome :=
  let first := Java_com_matthijs_kropholler_jniarticle_MyNativeObject_manipulateData javaEnv
    thisJavaObject myJavaDataObject w
  match first.fault with
  | some _ => first
  | none =>
    let second := Java_com_matthijs_kropholler_jniarticle_MyNativeObject_manipulateData javaEnv
      thisJavaObject myJavaDataObject first.world
    ⟨second.world, first.trace ++ second.trace, second.fault⟩

/-- A call of one of the three native methods, with its arguments. -/
inductive NativeCall
  | printToStdOut (thisJavaObject : jobject)
  | addNumbers (thisJavaObject : jobject) (number1 number2 : jint)
  | manipulateData (thisJavaObject myJavaDataObject : jobject)

/-- The world after one call. `addNumbers` is a pure function of its two numbers
and has no access to the world; a faulting `manipulateData` leaves the world at
the point of the fault. -/
def NativeCall.effect (javaEnv : JNIEnv) (c : NativeCall) (w : World) : World :=
  match c with
  | NativeCall.printToStdOut thisJavaObject =>
    Java_com_matthijs_kropholler_jniarticle_MyNativeObject_printToStdOut javaEnv
      thisJavaObject w
  | NativeCall.addNumbers _ _ _ => w
  | NativeCall.manipulateData thisJavaObject myJavaDataObject =>
    (Java_com_matthijs_kropholler_jniarticle_MyNativeObject_manipulateData javaEnv
      thisJavaObject myJavaDataObject w).world

/-- The world after a sequence of calls, made from left to right. -/
def runCalls (javaEnv : JNIEnv) (cs : List NativeCall) (w : World) : World :=
  cs.foldl (fun acc c => c.effect javaEnv acc) w

/-! ## Modified UTF-8: lemmas -/

theorem encodeChar_ne_zero (c : jchar) : ∀ b ∈ encodeChar c, b ≠ 0 := by
  intro b hb
  unfold encodeChar at hb
  split_ifs at hb <;> simp at hb <;> omega

theorem encodeUTF_ne_zero (s : List jchar) : ∀ b ∈ encodeUTF s, b ≠ 0 := by
  induction s with
  | nil => simp [encodeUTF]
  | cons c cs ih =>
    intro b hb
    simp only [encodeUTF, List.mem_append] at hb
    rcases hb with hb | hb
    · exact encodeChar_ne_zero c b hb
    · exact ih b hb

theorem encodeUTF_append (s t : List jchar) :
    encodeUTF (s ++ t) = encodeUTF s ++ encodeUTF t := by
  induction s with
  | nil => simp [encodeUTF]
  | cons c cs ih => simp [encodeUTF, ih]

theorem cstr_append_nul (bs : List Nat) (h : ∀ b ∈ bs, b ≠ 0) : cstr (bs ++ [0]) = bs := by
  induction bs with
  | nil => simp [cstr]
  | cons b bs ih =>
    have hb : b ≠ 0 := h b (by simp)
    have := ih (fun x hx => h x (by simp [hx]))
    simp only [cstr] at this ⊢
    simp [List.takeWhile_cons, hb, this]

theorem decodeUTF_encodeChar_append (c : jchar) (rest : List Nat) :
    decodeUTF (encodeChar c ++ rest) = (decodeUTF rest).map (fun s => c :: s) := by
  have hc := c.isLt
  have hfin : ∀ n : Nat, n = c.val → (Fin.ofNat n : jchar) = c := by
    intro n hn
    apply Fin.ext
    simp [Fin.ofNat, hn]
  unfold encodeChar
  split_ifs with h1 h2
  · rcases rest with _ | ⟨x, _ | ⟨y, zs⟩⟩ <;> simp [decodeUTF, h1, hfin]
  · have e : Fin.ofNat ((0xC0 + c.val / 64 - 0xC0) * 64 + (0x80 + c.val % 64 - 0x80)) = c :=
      hfin _ (by omega)
    rcases rest with _ | ⟨x, zs⟩ <;>
      simp only [List.append_nil, List.cons_append, List.nil_append, decodeUTF] <;>
      split_ifs <;> first | omega | (rw [e]; rfl) | rw [e]
  · have e : Fin.ofNat ((0xE0 + c.val / 4096 - 0xE0) * 4096 +
        (0x80 + c.val / 64 % 64 - 0x80) * 64 + (0x80 + c.val % 64 - 0x80)) = c :=
      hfin _ (by omega)
    simp only [List.cons_append, List.nil_append, decodeUTF]
    split_ifs <;> first | omega | (rw [e]; rfl)

theorem decodeUTF_encodeUTF (s : List jchar) : decodeUTF (encodeUTF s) = some s := by
  induction s with
  | nil => simp [encodeUTF, decodeUTF]
  | cons c cs ih => simp [encodeUTF, decodeUTF_encodeChar_append, ih]

theorem encodeUTF_reverse_of_ascii (s : List jchar)
    (h : ∀ c ∈ s, 1 ≤ c.val ∧ c.val ≤ 0x7F) :
    (encodeUTF s).reverse = encodeUTF s.reverse := by
  induction s with
  | nil => simp [encodeUTF]
  | cons c cs ih =>
    have hc : 1 ≤ c.val ∧ c.val ≤ 0x7F := h c (by simp)
    have ih' := ih (fun x hx => h x (by simp [hx]))
    simp [encodeUTF, encodeUTF_append, encodeChar, hc, ih']

theorem NewStringUTF_c_str (javaEnv : JNIEnv) (bs : List Nat) (h : ∀ b ∈ bs, b ≠ 0) :
    NewStringUTF javaEnv (c_str bs) =
      match decodeUTF bs with
      | some s => some s
      | none => javaEnv.malformed bs := by
  simp only [NewStringUTF, c_str, cstr_append_nul bs h]

theorem val_ofNat_of_lt (n : Nat) (h : n < 65536) : ((Fin.ofNat n : jchar)).val = n := by
  simp only [Fin.ofNat]; omega

theorem encodeChar_one (b : Nat) (h : 1 ≤ b ∧ b ≤ 0x7F) :
    encodeChar (Fin.ofNat b) = [b] := by
  simp only [encodeChar, val_ofNat_of_lt b (by omega), if_pos h]

theorem encodeChar_two (b b2 : Nat)
    (h : 0xC0 ≤ b ∧ b ≤ 0xDF ∧ 0x80 ≤ b2 ∧ b2 ≤ 0xBF ∧
      ((b - 0xC0) * 64 + (b2 - 0x80) = 0 ∨ 0x80 ≤ (b - 0xC0) * 64 + (b2 - 0x80))) :
    encodeChar (Fin.ofNat ((b - 0xC0) * 64 + (b2 - 0x80))) = [b, b2] := by
  have hv := val_ofNat_of_lt ((b - 0xC0) * 64 + (b2 - 0x80)) (by omega)
  have g1 : ¬ (1 ≤ (b - 0xC0) * 64 + (b2 - 0x80) ∧ (b - 0xC0) * 64 + (b2 - 0x80) ≤ 0x7F) := by
    omega
  have g2 : (b - 0xC0) * 64 + (b2 - 0x80) ≤ 0x7FF := by omega
  have e1 : 0xC0 + ((b - 0xC0) * 64 + (b2 - 0x80)) / 64 = b := by omega
  have e2 : 0x80 + ((b - 0xC0) * 64 + (b2 - 0x80)) % 64 = b2 := by omega
  simp only [encodeChar, hv, if_neg g1, if_pos g2, e1, e2]

theorem encodeChar_three (b b2 b3 : Nat)
    (h : 0xE0 ≤ b ∧ b ≤ 0xEF ∧ 0x80 ≤ b2 ∧ b2 ≤ 0xBF ∧ 0x80 ≤ b3 ∧ b3 ≤ 0xBF ∧
      0x800 ≤ (b - 0xE0) * 4096 + (b2 - 0x80) * 64 + (b3 - 0x80)) :
    encodeChar (Fin.ofNat ((b - 0xE0) * 4096 + (b2 - 0x80) * 64 + (b3 - 0x80))) =
      [b, b2, b3] := by
  have hv := val_ofNat_of_lt ((b - 0xE0) * 4096 + (b2 - 0x80) * 64 + (b3 - 0x80)) (by omega)
  have g1 : ¬ (1 ≤ (b - 0xE0) * 4096 + (b2 - 0x80) * 64 + (b3 - 0x80) ∧
      (b - 0xE0) * 4096 + (b2 - 0x80) * 64 + (b3 - 0x80) ≤ 0x7F) := by omega
  have g2 : ¬ ((b - 0xE0) * 4096 + (b2 - 0x80) * 64 + (b3 - 0x80) ≤ 0x7FF) := by omega
  have e1 : 0xE0 + ((b - 0xE0) * 4096 + (b2 - 0x80) * 64 + (b3 - 0x80)) / 4096 = b := by omega
  have e2 : 0x80 + ((b - 0xE0) * 4096 + (b2 - 0x80) * 64 + (b3 - 0x80)) / 64 % 64 = b2 := by
    omega
  have e3 : 0x80 + ((b - 0xE0) * 4096 + (b2 - 0x80) * 64 + (b3 - 0x80)) % 64 = b3 := by omega
  simp only [encodeChar, hv, if_neg g1, if_neg g2, e1, e2, e3]

theorem encodeUTF_of_decodeUTF (bs : List Nat) :
    ∀ s : List jchar, decodeUTF bs = some s → encodeUTF s = bs := by
  induction bs using decodeUTF.induct with
  | case1 => intro s h; simp [decodeUTF] at h; subst h; rfl
  | case2 b h1 =>
    intro s h
    simp only [decodeUTF, if_pos h1, Option.some.injEq] at h
    subst h
    simp [encodeUTF, encodeChar_one b h1]
  | case3 b h1 =>
    intro s h
    simp only [decodeUTF, if_neg h1] at h
    exact absurd h (by simp)
  | case4 b b2 h1 ih =>
    intro s h
    simp only [decodeUTF.eq_3, if_pos h1, Option.map_eq_some'] at h
    obtain ⟨t, ht, rfl⟩ := h
    simp [encodeUTF, encodeChar_one b h1, ih t ht]
  | case5 b b2 h1 h2 =>
    intro s h
    simp only [decodeUTF, if_neg h1, if_pos h2, Option.some.injEq] at h
    subst h
    simp [encodeUTF, encodeChar_two b b2 h2]
  | case6 b b2 h1 h2 =>
    intro s h
    simp only [decodeUTF, if_neg h1, if_neg h2] at h
    exact absurd h (by simp)
  | case7 b b2 b3 rest h1 ih =>
    intro s h
    simp only [decodeUTF.eq_4, if_pos h1, Option.map_eq_some'] at h
    obtain ⟨t, ht, rfl⟩ := h
    simp [encodeUTF, encodeChar_one b h1, ih t ht]
  | case8 b b2 b3 rest h1 h2 ih =>
    intro s h
    simp only [decodeUTF.eq_4, if_neg h1, if_pos h2, Option.map_eq_some'] at h
    obtain ⟨t, ht, rfl⟩ := h
    simp [encodeUTF, encodeChar_two b b2 h2, ih t ht]
  | case9 b b2 b3 rest h1 h2 h3 ih =>
    intro s h
    simp only [decodeUTF.eq_4, if_neg h1, if_neg h2, if_pos h3, Option.map_eq_some'] at h
    obtain ⟨t, ht, rfl⟩ := h
    simp [encodeUTF, encodeChar_three b b2 b3 h3, ih t ht]
  | case10 b b2 b3 rest h1 h2 h3 =>
    intro s h
    simp only [decodeUTF.eq_4, if_neg h1, if_neg h2, if_neg h3] at h
    exact absurd h (by simp)

theorem decodeUTF_eq_some_iff (bs : List Nat) (s : List jchar) :
    decodeUTF bs = some s ↔ encodeUTF s = bs :=
  ⟨encodeUTF_of_decodeUTF bs s, fun h => h ▸ decodeUTF_encodeUTF s⟩

theorem encodeUTF_ne_of_decodeUTF_none (bytes : List Nat) (h : decodeUTF bytes = none)
    (t : List jchar) : encodeUTF t ≠ bytes := by
  intro ht
  have := decodeUTF_encodeUTF t
  rw [ht, h] at this
  exact absurd this (by simp)

/-! ## `manipulateData` on a data object with a non-null name -/

theorem reversedBytes_ne_zero (s : List jchar) : ∀ b ∈ reversedBytes s, b ≠ 0 := by
  intro b hb
  exact encodeUTF_ne_zero s b (by simpa [reversedBytes] using hb)

theorem manipulateData_eq (javaEnv : JNIEnv) (thisJavaObject : jobject) (r : Nat)
    (w : World) (s : List jchar)
    (h : w.heap[r]? = some (JavaObject.DataObject (some s))) :
    Java_com_matthijs_kropholler_jniarticle_MyNativeObject_manipulateData javaEnv
        thisJavaObject (some r) w =
      ⟨{ w with heap := w.heap.set r (JavaObject.DataObject (newName javaEnv s)) },
        [Event.getName (some r), Event.GetStringUTFChars (encodeUTF s),
          Event.NewStringUTF (reversedBytes s), Event.setName (some r) (newName javaEnv s)],
        none⟩ := by
  have hz := encodeUTF_ne_zero s
  have hr := reversedBytes_ne_zero s
  have hg : GetMethodID jclass.DataObject "getName" "()Ljava/lang/String;" =
      some jmethodID.getName := by decide
  have hs : GetMethodID jclass.DataObject "setName" "(Ljava/lang/String;)V" =
      some jmethodID.setName := by decide
  have hn : NewStringUTF javaEnv (c_str (reversedBytes s)) = newName javaEnv s := by
    rw [NewStringUTF_c_str javaEnv _ hr]; rfl
  have hc : cstr (c_str (reversedBytes s)) = reversedBytes s := cstr_append_nul _ hr
  simp only [Java_com_matthijs_kropholler_jniarticle_MyNativeObject_manipulateData,
    GetObjectClass, h, hg, hs, CallObjectMethod, DataObject_getName, GetStringUTFChars,
    std_string, std_reverse, cstr_append_nul _ hz, CallVoidMethod, DataObject_setName]
  simp only [reversedBytes] at hn hc
  simp only [reversedBytes, hn, hc, List.cons_append, List.nil_append]

theorem newName_of_ascii (javaEnv : JNIEnv) (s : List jchar)
    (h : ∀ c ∈ s, 1 ≤ c.val ∧ c.val ≤ 0x7F) : newName javaEnv s = some s.reverse := by
  simp only [newName, reversedBytes, encodeUTF_reverse_of_ascii s h, decodeUTF_encodeUTF]

/-- For a name of characters `U+0001..U+007F` only, two calls of `manipulateData`
in succession return and leave the name as it was. -/
theorem manipulateDataTwice_ascii (javaEnv : JNIEnv) (thisJavaObject : jobject) (r : Nat)
    (w : World) (s : List jchar)
    (h : w.heap[r]? = some (JavaObject.DataObject (some s)))
    (hs : ∀ c ∈ s, 1 ≤ c.val ∧ c.val ≤ 0x7F) :
    (manipulateDataTwice javaEnv thisJavaObject (some r) w).fault = none ∧
      (manipulateDataTwice javaEnv thisJavaObject (some r) w).world = w := by
  have hlt : r < w.heap.length := by
    rcases Nat.lt_or_ge r w.heap.length with hlt | hge
    · exact hlt
    · rw [List.getElem?_eq_none hge] at h; exact absurd h (by simp)
  have hs' : ∀ c ∈ s.reverse, 1 ≤ c.val ∧ c.val ≤ 0x7F := by
    intro c hc
    exact hs c (by simpa using hc)
  have h1 := manipulateData_eq javaEnv thisJavaObject r w s h
  rw [newName_of_ascii javaEnv s hs] at h1
  have h2 := manipulateData_eq javaEnv thisJavaObject r
    { w with heap := w.heap.set r (JavaObject.DataObject (some s.reverse)) } s.reverse
    (by simp [hlt])
  rw [newName_of_ascii javaEnv s.reverse hs'] at h2
  simp only [manipulateDataTwice, h1, h2, List.reverse_reverse, List.set_set, true_and]
  have : w.heap.set r (JavaObject.DataObject (some s)) = w.heap := by
    apply List.ext_getElem?
    intro i
    by_cases hi : r = i
    · subst hi; simp [hlt, h]
    · simp [List.getElem?_set, hi]
  rw [this]

theorem manipulateData_cases (javaEnv : JNIEnv) (thisJavaObject myJavaDataObject : jobject)
    (w : World) :
    ((Java_com_matthijs_kropholler_jniarticle_MyNativeObject_manipulateData javaEnv
        thisJavaObject myJavaDataObject w).world = w) ∨
    (∃ r s, myJavaDataObject = some r ∧ w.heap[r]? = some (JavaObject.DataObject (some s)) ∧
      (Java_com_matthijs_kropholler_jniarticle_MyNativeObject_manipulateData javaEnv
        thisJavaObject myJavaDataObject w).world =
        { w with heap := w.heap.set r (JavaObject.DataObject (newName javaEnv s)) }) := by
  have hg : GetMethodID jclass.DataObject "getName" "()Ljava/lang/String;" =
      some jmethodID.getName := by decide
  have hg' : GetMethodID jclass.MyNativeObject "getName" "()Ljava/lang/String;" = none := by
    decide
  rcases myJavaDataObject with _ | r
  · left
    simp [Java_com_matthijs_kropholler_jniarticle_MyNativeObject_manipulateData, GetObjectClass]
  · rcases hr : w.heap[r]? with _ | (_ | (_ | s))
    · left
      simp [Java_com_matthijs_kropholler_jniarticle_MyNativeObject_manipulateData,
        GetObjectClass, hr]
    · left
      simp [Java_com_matthijs_kropholler_jniarticle_MyNativeObject_manipulateData,
        GetObjectClass, hr, hg', CallObjectMethod]
    · left
      simp [Java_com_matthijs_kropholler_jniarticle_MyNativeObject_manipulateData,
        GetObjectClass, hr, hg, CallObjectMethod, DataObject_getName, GetStringUTFChars]
    · right
      exact ⟨r, s, rfl, hr, by rw [manipulateData_eq javaEnv thisJavaObject r w s hr]⟩

theorem manipulateData_heap_only (javaEnv : JNIEnv) (thisJavaObject myJavaDataObject : jobject)
    (out out' : List Char) (heap : List JavaObject) :
    (Java_com_matthijs_kropholler_jniarticle_MyNativeObject_manipulateData javaEnv
        thisJavaObject myJavaDataObject ⟨out, heap⟩).world.heap =
      (Java_com_matthijs_kropholler_jniarticle_MyNativeObject_manipulateData javaEnv
        thisJavaObject myJavaDataObject ⟨out', heap⟩).world.heap ∧
    (Java_com_matthijs_kropholler_jniarticle_MyNativeObject_manipulateData javaEnv
        thisJavaObject myJavaDataObject ⟨out, heap⟩).trace =
      (Java_com_matthijs_kropholler_jniarticle_MyNativeObject_manipulateData javaEnv
        thisJavaObject myJavaDataObject ⟨out', heap⟩).trace ∧
    (Java_com_matthijs_kropholler_jniarticle_MyNativeObject_manipulateData javaEnv
        thisJavaObject myJavaDataObject ⟨out, heap⟩).fault =
      (Java_com_matthijs_kropholler_jniarticle_MyNativeObject_manipulateData javaEnv
        thisJavaObject myJavaDataObject ⟨out', heap⟩).fault := by
  have hg : GetMethodID jclass.DataObject "getName" "()Ljava/lang/String;" =
      some jmethodID.getName := by decide
  have hg' : GetMethodID jclass.MyNativeObject "getName" "()Ljava/lang/String;" = none := by
    decide
  rcases myJavaDataObject with _ | r
  · simp [Java_com_matthijs_kropholler_jniarticle_MyNativeObject_manipulateData, GetObjectClass]
  · rcases hr : heap[r]? with _ | (_ | (_ | s))
    · simp [Java_com_matthijs_kropholler_jniarticle_MyNativeObject_manipulateData,
        GetObjectClass, hr]
    · simp [Java_com_matthijs_kropholler_jniarticle_MyNativeObject_manipulateData,
        GetObjectClass, hr, hg', CallObjectMethod]
    · simp [Java_com_matthijs_kropholler_jniarticle_MyNativeObject_manipulateData,
        GetObjectClass, hr, hg, CallObjectMethod, DataObject_getName, GetStringUTFChars]
    · rw [manipulateData_eq javaEnv thisJavaObject r ⟨out, heap⟩ s hr,
        manipulateData_eq javaEnv thisJavaObject r ⟨out', heap⟩ s hr]
      exact ⟨rfl, rfl, rfl⟩

theorem runCalls_heap_of_no_manipulateData (javaEnv : JNIEnv) (cs : List NativeCall)
    (w : World) (h : ∀ c ∈ cs, ∀ t d, c ≠ NativeCall.manipulateData t d) :
    (runCalls javaEnv cs w).heap = w.heap := by
  induction cs generalizing w with
  | nil => rfl
  | cons c cs ih =>
    have hc := h c (by simp)
    have ih' := fun w' => ih w' (fun x hx => h x (by simp [hx]))
    simp only [runCalls, List.foldl_cons] at ih' ⊢
    rw [ih']
    cases c with
    | printToStdOut t => rfl
    | addNumbers t a b => rfl
    | manipulateData t d => exact absurd rfl (hc t d)

theorem runCalls_stdout_of_no_printToStdOut (javaEnv : JNIEnv) (cs : List NativeCall)
    (w : World) (h : ∀ c ∈ cs, ∀ t, c ≠ NativeCall.printToStdOut t) :
    (runCalls javaEnv cs w).stdout = w.stdout := by
  induction cs generalizing w with
  | nil => rfl
  | cons c cs ih =>
    have hc := h c (by simp)
    have ih' := fun w' => ih w' (fun x hx => h x (by simp [hx]))
    simp only [runCalls, List.foldl_cons] at ih' ⊢
    rw [ih']
    cases c with
    | printToStdOut t => exact absurd rfl (hc t)
    | addNumbers t a b => rfl
    | manipulateData t d =>
      rcases manipulateData_cases javaEnv t d w with h1 | ⟨r, s, _, _, h1⟩ <;>
        simp [NativeCall.effect, h1]

/-! ## `printToStdOut` called repeatedly -/

theorem printCalls_eq (javaEnv : JNIEnv) (receivers : List jobject) (w : World) :
    printCalls javaEnv receivers w =
      { w with stdout := w.stdout ++ (List.replicate receivers.length helloLine).flatten } := by
  induction receivers generalizing w with
  | nil => simp [printCalls]
  | cons t ts ih =>
    have := ih (Java_com_matthijs_kropholler_jniarticle_MyNativeObject_printToStdOut javaEnv t w)
    simp only [printCalls, List.foldl_cons] at this ⊢
    rw [this]
    simp [Java_com_matthijs_kropholler_jniarticle_MyNativeObject_printToStdOut, helloLine,
      List.replicate_succ]

/-! ## `addNumbers` -/

/-- C3: `addNumbers` is commutative for every pair of 32-bit integers, whether or
not their sum fits in 32 bits. -/
theorem addNumbers_comm (javaEnv : JNIEnv) (thisJavaObject : jobject) (a b : jint) :
    Java_com_matthijs_kropholler_jniarticle_MyNativeObject_addNumbers javaEnv
        thisJavaObject a b =
      Java_com_matthijs_kropholler_jniarticle_MyNativeObject_addNumbers javaEnv
        thisJavaObject b a := by
  apply Subtype.ext
  simp only [Java_com_matthijs_kropholler_jniarticle_MyNativeObject_addNumbers, add_comm]

/-- C4: when the mathematical sum of the two arguments lies in the signed 32-bit
range, `addNumbers` returns exactly that sum, and the value returned is the same
for every receiver object and every environment argument. -/
theorem addNumbers_correct (javaEnv javaEnv' : JNIEnv) (thisJavaObject thisJavaObject' : jobject)
    (a b : jint)
    (h : -2147483648 ≤ a.val + b.val ∧ a.val + b.val ≤ 2147483647) :
    (Java_com_matthijs_kropholler_jniarticle_MyNativeObject_addNumbers javaEnv
        thisJavaObject a b).val = a.val + b.val ∧
      Java_com_matthijs_kropholler_jniarticle_MyNativeObject_addNumbers javaEnv
        thisJavaObject a b =
      Java_com_matthijs_kropholler_jniarticle_MyNativeObject_addNumbers javaEnv'
        thisJavaObject' a b := by
  refine ⟨?_, rfl⟩
  simp only [Java_com_matthijs_kropholler_jniarticle_MyNativeObject_addNumbers, wrap32]
  omega

theorem addNumbers_correct_witness :
    (-2147483648 ≤ ((⟨20, by decide⟩ : jint).val + (⟨22, by decide⟩ : jint).val) ∧
      ((⟨20, by decide⟩ : jint).val + (⟨22, by decide⟩ : jint).val) ≤ 2147483647) ∧
    ((Java_com_matthijs_kropholler_jniarticle_MyNativeObject_addNumbers ⟨fun _ => none⟩
        (some 0) ⟨20, by decide⟩ ⟨22, by decide⟩).val =
        (⟨20, by decide⟩ : jint).val + (⟨22, by decide⟩ : jint).val ∧
      Java_com_matthijs_kropholler_jniarticle_MyNativeObject_addNumbers ⟨fun _ => none⟩
        (some 0) ⟨20, by decide⟩ ⟨22, by decide⟩ =
      Java_com_matthijs_kropholler_jniarticle_MyNativeObject_addNumbers
        ⟨fun bs => some (bs.map Fin.ofNat)⟩ none ⟨20, by decide⟩ ⟨22, by decide⟩) :=
  ⟨by decide, addNumbers_correct ⟨fun _ => none⟩ ⟨fun bs => some (bs.map Fin.ofNat)⟩
    (some 0) none ⟨20, by decide⟩ ⟨22, by decide⟩ (by decide)⟩

/-- C9: the value `addNumbers` returns lies in the signed 32-bit range and is
congruent to the mathematical sum modulo 2^32 (it is the sum reduced by
`wrap32`); it equals the sum exactly when the sum lies in the signed 32-bit
range; and for 2147483647 and 1 it is -2147483648, which is not the sum. -/
theorem addNumbers_wraps :
    (∀ (javaEnv : JNIEnv) (thisJavaObject : jobject) (a b : jint),
      (Java_com_matthijs_kropholler_jniarticle_MyNativeObject_addNumbers javaEnv
          thisJavaObject a b).val = (a.val + b.val + 2147483648) % 4294967296 - 2147483648 ∧
      -2147483648 ≤ (Java_com_matthijs_kropholler_jniarticle_MyNativeObject_addNumbers javaEnv
          thisJavaObject a b).val ∧
      (Java_com_matthijs_kropholler_jniarticle_MyNativeObject_addNumbers javaEnv
          thisJavaObject a b).val ≤ 2147483647 ∧
      ((Java_com_matthijs_kropholler_jniarticle_MyNativeObject_addNumbers javaEnv
          thisJavaObject a b).val - (a.val + b.val)) % 4294967296 = 0 ∧
      ((Java_com_matthijs_kropholler_jniarticle_MyNativeObject_addNumbers javaEnv
          thisJavaObject a b).val = a.val + b.val ↔
        (-2147483648 ≤ a.val + b.val ∧ a.val + b.val ≤ 2147483647))) ∧
    (∀ (javaEnv : JNIEnv) (thisJavaObject : jobject),
      (Java_com_matthijs_kropholler_jniarticle_MyNativeObject_addNumbers javaEnv
          thisJavaObject ⟨2147483647, by decide⟩ ⟨1, by decide⟩).val = -2147483648 ∧
      (Java_com_matthijs_kropholler_jniarticle_MyNativeObject_addNumbers javaEnv
          thisJavaObject ⟨2147483647, by decide⟩ ⟨1, by decide⟩).val ≠ 2147483647 + 1) := by
  refine ⟨?_, ?_⟩
  · intro javaEnv thisJavaObject a b
    have ha := a.property
    have hb := b.property
    refine ⟨rfl, ?_, ?_, ?_, ?_⟩ <;>
      simp only [Java_com_matthijs_kropholler_jniarticle_MyNativeObject_addNumbers, wrap32] <;>
      omega
  · intro javaEnv thisJavaObject
    simp only [Java_com_matthijs_kropholler_jniarticle_MyNativeObject_addNumbers, wrap32]
    decide

/-! ## `printToStdOut` -/

/-- C5: for every receiver and every prior content of standard output, one call
of `printToStdOut` appends exactly the 17 characters of `Hello from C++ !!`
followed by one newline and changes nothing else; successive calls, one per
receiver in a list of length n, append that line n times. -/
theorem printToStdOut_appends_line :
    (∀ (javaEnv : JNIEnv) (thisJavaObject : jobject) (w : World),
      Java_com_matthijs_kropholler_jniarticle_MyNativeObject_printToStdOut javaEnv
          thisJavaObject w =
        { stdout := w.stdout ++
            ['H', 'e', 'l', 'l', 'o', ' ', 'f', 'r', 'o', 'm', ' ', 'C', '+', '+', ' ', '!', '!',
              Char.ofNat 10],
          heap := w.heap }) ∧
    (∀ (javaEnv : JNIEnv) (receivers : List jobject) (w : World),
      (printCalls javaEnv receivers w).stdout =
          w.stdout ++ (List.replicate receivers.length
            ['H', 'e', 'l', 'l', 'o', ' ', 'f', 'r', 'o', 'm', ' ', 'C', '+', '+', ' ', '!', '!',
              Char.ofNat 10]).flatten ∧
        (printCalls javaEnv receivers w).heap = w.heap) := by
  have hl : helloLine =
      ['H', 'e', 'l', 'l', 'o', ' ', 'f', 'r', 'o', 'm', ' ', 'C', '+', '+', ' ', '!', '!',
        Char.ofNat 10] := by decide
  refine ⟨?_, ?_⟩
  · intro javaEnv thisJavaObject w
    simp only [Java_com_matthijs_kropholler_jniarticle_MyNativeObject_printToStdOut]
    rw [← hl]; rfl
  · intro javaEnv receivers w
    rw [printCalls_eq, ← hl]
    exact ⟨rfl, rfl⟩

/-! ## `manipulateData`: calls made and bytes exchanged -/

/-- C10: for a data object with a non-null name, one call of `manipulateData`
returns after exactly the calls `getName`, `GetStringUTFChars`, `NewStringUTF`,
`setName` in this order (so `getName` once, then `setName` once); the bytes given
to `NewStringUTF` have the length of the bytes obtained from `GetStringUTFChars`,
are a permutation of them with the same count of every byte, and equal them
exactly when they form a palindrome; `setName` receives what `NewStringUTF`
returned for them and the object's name becomes that string. -/
theorem manipulateData_calls (javaEnv : JNIEnv) (thisJavaObject : jobject) (r : Nat)
    (w : World) (s : List jchar)
    (h : w.heap[r]? = some (JavaObject.DataObject (some s))) :
    ∃ got given : List Nat,
      (Java_com_matthijs_kropholler_jniarticle_MyNativeObject_manipulateData javaEnv
          thisJavaObject (some r) w).trace =
        [Event.getName (some r), Event.GetStringUTFChars got, Event.NewStringUTF given,
          Event.setName (some r) (NewStringUTF javaEnv (c_str given))] ∧
      (Java_com_matthijs_kropholler_jniarticle_MyNativeObject_manipulateData javaEnv
          thisJavaObject (some r) w).fault = none ∧
      (Java_com_matthijs_kropholler_jniarticle_MyNativeObject_manipulateData javaEnv
          thisJavaObject (some r) w).world.heap[r]? =
        some (JavaObject.DataObject (NewStringUTF javaEnv (c_str given))) ∧
      got = encodeUTF s ∧
      given.length = got.length ∧
      given.Perm got ∧
      (∀ b : Nat, given.count b = got.count b) ∧
      (given = got ↔ got.Palindrome) := by
  have hlt : r < w.heap.length := by
    rcases Nat.lt_or_ge r w.heap.length with hlt | hge
    · exact hlt
    · rw [List.getElem?_eq_none hge] at h; exact absurd h (by simp)
  have hn : NewStringUTF javaEnv (c_str (reversedBytes s)) = newName javaEnv s := by
    rw [NewStringUTF_c_str javaEnv _ (reversedBytes_ne_zero s)]; rfl
  refine ⟨encodeUTF s, reversedBytes s, ?_, ?_, ?_, rfl, ?_, ?_, ?_, ?_⟩
  · rw [manipulateData_eq javaEnv thisJavaObject r w s h, hn]
  · rw [manipulateData_eq javaEnv thisJavaObject r w s h]
  · rw [manipulateData_eq javaEnv thisJavaObject r w s h, hn]
    simp [hlt]
  · simp [reversedBytes]
  · simp [reversedBytes]
  · intro b; simp [reversedBytes]
  · simp only [reversedBytes]
    exact List.Palindrome.iff_reverse_eq.symm

theorem manipulateData_calls_witness :
    ∃ got given : List Nat,
      (Java_com_matthijs_kropholler_jniarticle_MyNativeObject_manipulateData
          ⟨fun _ => none⟩ (some 0) (some 1)
          ⟨[], [JavaObject.MyNativeObject, JavaObject.DataObject (some [0x68, 0xE9])]⟩).trace =
        [Event.getName (some 1), Event.GetStringUTFChars got, Event.NewStringUTF given,
          Event.setName (some 1) (NewStringUTF ⟨fun _ => none⟩ (c_str given))] ∧
      (Java_com_matthijs_kropholler_jniarticle_MyNativeObject_manipulateData
          ⟨fun _ => none⟩ (some 0) (some 1)
          ⟨[], [JavaObject.MyNativeObject, JavaObject.DataObject (some [0x68, 0xE9])]⟩).fault =
        none ∧
      (Java_com_matthijs_kropholler_jniarticle_MyNativeObject_manipulateData
          ⟨fun _ => none⟩ (some 0) (some 1)
          ⟨[], [JavaObject.MyNativeObject,
            JavaObject.DataObject (some [0x68, 0xE9])]⟩).world.heap[1]? =
        some (JavaObject.DataObject (NewStringUTF ⟨fun _ => none⟩ (c_str given))) ∧
      got = encodeUTF [0x68, 0xE9] ∧
      given.length = got.length ∧
      given.Perm got ∧
      (∀ b : Nat, given.count b = got.count b) ∧
      (given = got ↔ got.Palindrome) :=
  manipulateData_calls ⟨fun _ => none⟩ (some 0) 1
    ⟨[], [JavaObject.MyNativeObject, JavaObject.DataObject (some [0x68, 0xE9])]⟩ [0x68, 0xE9] rfl

/-! ## `manipulateData`: null references -/

/-- C6: when `manipulateData` is given a `NULL` data object, or a data object
whose `getName` returns `NULL`, the call faults, no `setName` call is made and
the world (every object's name included) is as before the call. -/
theorem manipulateData_null (javaEnv : JNIEnv) (thisJavaObject myJavaDataObject : jobject)
    (w : World)
    (h : myJavaDataObject = none ∨
      ∃ r, myJavaDataObject = some r ∧ w.heap[r]? = some (JavaObject.DataObject none)) :
    (Java_com_matthijs_kropholler_jniarticle_MyNativeObject_manipulateData javaEnv
        thisJavaObject myJavaDataObject w).fault ≠ none ∧
      (∀ obj arg, Event.setName obj arg ∉
        (Java_com_matthijs_kropholler_jniarticle_MyNativeObject_manipulateData javaEnv
          thisJavaObject myJavaDataObject w).trace) ∧
      (Java_com_matthijs_kropholler_jniarticle_MyNativeObject_manipulateData javaEnv
        thisJavaObject myJavaDataObject w).world = w := by
  have hg : GetMethodID jclass.DataObject "getName" "()Ljava/lang/String;" =
      some jmethodID.getName := by decide
  rcases h with h | ⟨r, h, hr⟩
  · subst h
    simp [Java_com_matthijs_kropholler_jniarticle_MyNativeObject_manipulateData, GetObjectClass]
  · subst h
    simp [Java_com_matthijs_kropholler_jniarticle_MyNativeObject_manipulateData, GetObjectClass,
      hr, hg, CallObjectMethod, DataObject_getName, GetStringUTFChars]

theorem manipulateData_null_witness :
    ((some 1 : jobject) = none ∨
      ∃ r, (some 1 : jobject) = some r ∧
        (World.mk [] [JavaObject.MyNativeObject, JavaObject.DataObject none]).heap[r]? =
          some (JavaObject.DataObject none)) ∧
    ((Java_com_matthijs_kropholler_jniarticle_MyNativeObject_manipulateData ⟨fun _ => none⟩
        (some 0) (some 1) ⟨[], [JavaObject.MyNativeObject, JavaObject.DataObject none]⟩).fault ≠
        none ∧
      (∀ obj arg, Event.setName obj arg ∉
        (Java_com_matthijs_kropholler_jniarticle_MyNativeObject_manipulateData ⟨fun _ => none⟩
          (some 0) (some 1)
          ⟨[], [JavaObject.MyNativeObject, JavaObject.DataObject none]⟩).trace) ∧
      (Java_com_matthijs_kropholler_jniarticle_MyNativeObject_manipulateData ⟨fun _ => none⟩
        (some 0) (some 1) ⟨[], [JavaObject.MyNativeObject, JavaObject.DataObject none]⟩).world =
        ⟨[], [JavaObject.MyNativeObject, JavaObject.DataObject none]⟩) :=
  ⟨Or.inr ⟨1, rfl, rfl⟩,
    manipulateData_null ⟨fun _ => none⟩ (some 0) (some 1)
      ⟨[], [JavaObject.MyNativeObject, JavaObject.DataObject none]⟩ (Or.inr ⟨1, rfl, rfl⟩)⟩

/-! ## `manipulateData`: bytes against characters -/

/-- C8: `manipulateData` reverses the bytes of the modified UTF-8 encoding of the
name. For a name of characters `U+0001..U+007F` only, the name written back is
the character-wise reverse. For the name `é` (`U+00E9`, bytes `C3 A9`) and for
the name `U+0000` (bytes `C0 80`) the bytes handed to `NewStringUTF` are
`A9 C3` and `80 C0`: not the encoding of the reversed name, and not the
modified UTF-8 encoding of any string. -/
theorem manipulateData_reverses_bytes :
    (∀ (javaEnv : JNIEnv) (thisJavaObject : jobject) (r : Nat) (w : World) (s : List jchar),
      w.heap[r]? = some (JavaObject.DataObject (some s)) →
      Event.NewStringUTF (encodeUTF s).reverse ∈
        (Java_com_matthijs_kropholler_jniarticle_MyNativeObject_manipulateData javaEnv
          thisJavaObject (some r) w).trace) ∧
    (∀ (javaEnv : JNIEnv) (thisJavaObject : jobject) (r : Nat) (w : World) (s : List jchar),
      w.heap[r]? = some (JavaObject.DataObject (some s)) →
      (∀ c ∈ s, 1 ≤ c.val ∧ c.val ≤ 0x7F) →
      (Java_com_matthijs_kropholler_jniarticle_MyNativeObject_manipulateData javaEnv
          thisJavaObject (some r) w).world.heap[r]? =
        some (JavaObject.DataObject (some s.reverse))) ∧
    (∀ (javaEnv : JNIEnv),
      (Java_com_matthijs_kropholler_jniarticle_MyNativeObject_manipulateData javaEnv
          (some 0) (some 1)
          ⟨[], [JavaObject.MyNativeObject, JavaObject.DataObject (some [0xE9])]⟩).trace =
        [Event.getName (some 1), Event.GetStringUTFChars [0xC3, 0xA9],
          Event.NewStringUTF [0xA9, 0xC3],
          Event.setName (some 1) (javaEnv.malformed [0xA9, 0xC3])]) ∧
    encodeUTF ([0xE9] : List jchar).reverse = [0xC3, 0xA9] ∧
    decodeUTF [0xA9, 0xC3] = none ∧
    (∀ t : List jchar, encodeUTF t ≠ [0xA9, 0xC3]) ∧
    (∀ (javaEnv : JNIEnv),
      (Java_com_matthijs_kropholler_jniarticle_MyNativeObject_manipulateData javaEnv
          (some 0) (some 1)
          ⟨[], [JavaObject.MyNativeObject, JavaObject.DataObject (some [0x0])]⟩).trace =
        [Event.getName (some 1), Event.GetStringUTFChars [0xC0, 0x80],
          Event.NewStringUTF [0x80, 0xC0],
          Event.setName (some 1) (javaEnv.malformed [0x80, 0xC0])]) ∧
    encodeUTF ([0x0] : List jchar).reverse = [0xC0, 0x80] ∧
    decodeUTF [0x80, 0xC0] = none ∧
    (∀ t : List jchar, encodeUTF t ≠ [0x80, 0xC0]) := by
  refine ⟨?_, ?_, ?_, by decide, by decide, ?_, ?_, by decide, by decide, ?_⟩
  · intro javaEnv thisJavaObject r w s h
    rw [manipulateData_eq javaEnv thisJavaObject r w s h]
    simp [reversedBytes]
  · intro javaEnv thisJavaObject r w s h hs
    have hlt : r < w.heap.length := by
      rcases Nat.lt_or_ge r w.heap.length with hlt | hge
      · exact hlt
      · rw [List.getElem?_eq_none hge] at h; exact absurd h (by simp)
    rw [manipulateData_eq javaEnv thisJavaObject r w s h, newName_of_ascii javaEnv s hs]
    simp [hlt]
  · intro javaEnv
    rfl
  · exact encodeUTF_ne_of_decodeUTF_none _ (by decide)
  · intro javaEnv
    rfl
  · exact encodeUTF_ne_of_decodeUTF_none _ (by decide)

theorem manipulateData_reverses_bytes_witness :
    (Java_com_matthijs_kropholler_jniarticle_MyNativeObject_manipulateData rejectingEnv
        (some 0) (some 1)
        ⟨[], [JavaObject.MyNativeObject,
          JavaObject.DataObject (some [0x4A, 0x4E, 0x49])]⟩).world.heap[1]? =
      some (JavaObject.DataObject (some [0x49, 0x4E, 0x4A])) :=
  manipulateData_reverses_bytes.2.1 rejectingEnv (some 0) 1
    ⟨[], [JavaObject.MyNativeObject, JavaObject.DataObject (some [0x4A, 0x4E, 0x49])]⟩
    [0x4A, 0x4E, 0x49] rfl
    (by
      intro c hc
      simp only [List.mem_cons, List.mem_singleton, List.not_mem_nil, or_false] at hc
      rcases hc with rfl | rfl | rfl <;> decide)

/-- C2 at the name `hé` (`U+0068 U+00E9`): `GetStringUTFChars` yields `68 C3 A9`,
the native code hands `A9 C3 68` to `NewStringUTF`, which is neither the
encoding `C3 A9 68` of the reversed name `éh` nor the encoding of any string;
the name written back is whatever the environment makes of these bytes, and it
is not `éh` in an environment that returns `NULL` for them nor in one that reads
them byte by byte. -/
theorem manipulateData_name_not_reversed :
    (∀ (javaEnv : JNIEnv),
      (Java_com_matthijs_kropholler_jniarticle_MyNativeObject_manipulateData javaEnv
          (some 0) (some 1)
          ⟨[], [JavaObject.MyNativeObject, JavaObject.DataObject (some [0x68, 0xE9])]⟩).trace =
        [Event.getName (some 1), Event.GetStringUTFChars [0x68, 0xC3, 0xA9],
          Event.NewStringUTF [0xA9, 0xC3, 0x68],
          Event.setName (some 1) (javaEnv.malformed [0xA9, 0xC3, 0x68])] ∧
      (Java_com_matthijs_kropholler_jniarticle_MyNativeObject_manipulateData javaEnv
          (some 0) (some 1)
          ⟨[], [JavaObject.MyNativeObject,
            JavaObject.DataObject (some [0x68, 0xE9])]⟩).world.heap =
        [JavaObject.MyNativeObject,
          JavaObject.DataObject (javaEnv.malformed [0xA9, 0xC3, 0x68])]) ∧
    encodeUTF ([0x68, 0xE9] : List jchar).reverse = [0xC3, 0xA9, 0x68] ∧
    (∀ t : List jchar, encodeUTF t ≠ [0xA9, 0xC3, 0x68]) ∧
    (Java_com_matthijs_kropholler_jniarticle_MyNativeObject_manipulateData rejectingEnv
        (some 0) (some 1)
        ⟨[], [JavaObject.MyNativeObject,
          JavaObject.DataObject (some [0x68, 0xE9])]⟩).world.heap[1]? ≠
      some (JavaObject.DataObject (some ([0x68, 0xE9] : List jchar).reverse)) ∧
    (Java_com_matthijs_kropholler_jniarticle_MyNativeObject_manipulateData bytewiseEnv
        (some 0) (some 1)
        ⟨[], [JavaObject.MyNativeObject,
          JavaObject.DataObject (some [0x68, 0xE9])]⟩).world.heap[1]? ≠
      some (JavaObject.DataObject (some ([0x68, 0xE9] : List jchar).reverse)) := by
  refine ⟨fun javaEnv => ⟨rfl, rfl⟩, by decide, ?_, by decide, by decide⟩
  exact encodeUTF_ne_of_decodeUTF_none _ (by decide)

/-- C1 at the name `é` (`U+00E9`): the first call hands the bytes `A9 C3`, which
encode no string, to `NewStringUTF` and writes back what the environment makes
of them; in an environment that returns `NULL` for them the second call faults
with the name left `NULL`, and in one that reads them byte by byte the name after
the second call is `U+0083 U+00C3 U+00A9 U+00C2`. In neither is it `é`. -/
theorem manipulateData_twice_not_identity :
    (∀ (javaEnv : JNIEnv),
      (Java_com_matthijs_kropholler_jniarticle_MyNativeObject_manipulateData javaEnv
          (some 0) (some 1)
          ⟨[], [JavaObject.MyNativeObject, JavaObject.DataObject (some [0xE9])]⟩).world.heap =
        [JavaObject.MyNativeObject, JavaObject.DataObject (javaEnv.malformed [0xA9, 0xC3])]) ∧
    (∀ t : List jchar, encodeUTF t ≠ [0xA9, 0xC3]) ∧
    (manipulateDataTwice rejectingEnv (some 0) (some 1)
        ⟨[], [JavaObject.MyNativeObject, JavaObject.DataObject (some [0xE9])]⟩).fault =
      some Fault.nullString ∧
    (manipulateDataTwice rejectingEnv (some 0) (some 1)
        ⟨[], [JavaObject.MyNativeObject, JavaObject.DataObject (some [0xE9])]⟩).world.heap =
      [JavaObject.MyNativeObject, JavaObject.DataObject none] ∧
    (manipulateDataTwice bytewiseEnv (some 0) (some 1)
        ⟨[], [JavaObject.MyNativeObject, JavaObject.DataObject (some [0xE9])]⟩).fault = none ∧
    (manipulateDataTwice bytewiseEnv (some 0) (some 1)
        ⟨[], [JavaObject.MyNativeObject, JavaObject.DataObject (some [0xE9])]⟩).world.heap =
      [JavaObject.MyNativeObject, JavaObject.DataObject (some [0x83, 0xC3, 0xA9, 0xC2])] := by
  refine ⟨fun javaEnv => rfl, ?_, by decide, by decide, by decide, by decide⟩
  exact encodeUTF_ne_of_decodeUTF_none _ (by decide)

/-! ## Independence of the three entry points -/

/-- C7: the three entry points share no state. `printToStdOut` leaves the heap
(every object's name) unchanged; `addNumbers` changes nothing and its value is
the same for every environment and receiver; `manipulateData` leaves standard
output unchanged, keeps every object other than the one passed to it, and keeps
every `MyNativeObject` (the receiver among them). Hence `printToStdOut` writes
the same after any calls of the other two, and `manipulateData` makes the same
calls, ends with the same fault status and yields the same heap after any calls
of the other two. -/
theorem entry_points_independent :
    (∀ (javaEnv : JNIEnv) (t : jobject) (w : World),
      (Java_com_matthijs_kropholler_jniarticle_MyNativeObject_printToStdOut javaEnv
        t w).heap = w.heap) ∧
    (∀ (javaEnv : JNIEnv) (t : jobject) (a b : jint) (w : World),
      NativeCall.effect javaEnv (NativeCall.addNumbers t a b) w = w) ∧
    (∀ (javaEnv : JNIEnv) (t d : jobject) (w : World),
      (Java_com_matthijs_kropholler_jniarticle_MyNativeObject_manipulateData javaEnv
        t d w).world.stdout = w.stdout ∧
      (Java_com_matthijs_kropholler_jniarticle_MyNativeObject_manipulateData javaEnv
        t d w).world.heap.length = w.heap.length ∧
      (∀ r : Nat, d ≠ some r →
        (Java_com_matthijs_kropholler_jniarticle_MyNativeObject_manipulateData javaEnv
          t d w).world.heap[r]? = w.heap[r]?) ∧
      (∀ r : Nat, w.heap[r]? = some JavaObject.MyNativeObject →
        (Java_com_matthijs_kropholler_jniarticle_MyNativeObject_manipulateData javaEnv
          t d w).world.heap[r]? = some JavaObject.MyNativeObject)) ∧
    (∀ (javaEnv : JNIEnv) (cs : List NativeCall) (t : jobject) (w : World),
      (∀ c ∈ cs, ∀ t', c ≠ NativeCall.printToStdOut t') →
      (Java_com_matthijs_kropholler_jniarticle_MyNativeObject_printToStdOut javaEnv
          t (runCalls javaEnv cs w)).stdout =
        (Java_com_matthijs_kropholler_jniarticle_MyNativeObject_printToStdOut javaEnv
          t w).stdout) ∧
    (∀ (javaEnv javaEnv' : JNIEnv) (t t' : jobject) (a b : jint),
      Java_com_matthijs_kropholler_jniarticle_MyNativeObject_addNumbers javaEnv t a b =
        Java_com_matthijs_kropholler_jniarticle_MyNativeObject_addNumbers javaEnv' t' a b) ∧
    (∀ (javaEnv : JNIEnv) (cs : List NativeCall) (t d : jobject) (w : World),
      (∀ c ∈ cs, ∀ t' d', c ≠ NativeCall.manipulateData t' d') →
      (Java_com_matthijs_kropholler_jniarticle_MyNativeObject_manipulateData javaEnv
          t d (runCalls javaEnv cs w)).world.heap =
        (Java_com_matthijs_kropholler_jniarticle_MyNativeObject_manipulateData javaEnv
          t d w).world.heap ∧
      (Java_com_matthijs_kropholler_jniarticle_MyNativeObject_manipulateData javaEnv
          t d (runCalls javaEnv cs w)).trace =
        (Java_com_matthijs_kropholler_jniarticle_MyNativeObject_manipulateData javaEnv
          t d w).trace ∧
      (Java_com_matthijs_kropholler_jniarticle_MyNativeObject_manipulateData javaEnv
          t d (runCalls javaEnv cs w)).fault =
        (Java_com_matthijs_kropholler_jniarticle_MyNativeObject_manipulateData javaEnv
          t d w).fault) := by
  refine ⟨fun _ _ _ => rfl, fun _ _ _ _ _ => rfl, ?_, ?_, fun _ _ _ _ _ _ => rfl, ?_⟩
  · intro javaEnv t d w
    rcases manipulateData_cases javaEnv t d w with h1 | ⟨r, s, hd, hr, h1⟩
    · rw [h1]
      exact ⟨rfl, rfl, fun _ _ => rfl, fun _ h => h⟩
    · rw [h1]
      refine ⟨rfl, by simp, ?_, ?_⟩
      · intro r' hne
        have : r ≠ r' := fun e => hne (by rw [hd, e])
        simp [List.getElem?_set, this]
      · intro r' hr'
        have : r ≠ r' := by
          intro e
          rw [e, hr'] at hr
          exact absurd hr (by simp)
        simp [List.getElem?_set, this, hr']
  · intro javaEnv cs t w h
    simp only [Java_com_matthijs_kropholler_jniarticle_MyNativeObject_printToStdOut,
      runCalls_stdout_of_no_printToStdOut javaEnv cs w h]
  · intro javaEnv cs t d w h
    have hh := runCalls_heap_of_no_manipulateData javaEnv cs w h
    have := manipulateData_heap_only javaEnv t d (runCalls javaEnv cs w).stdout w.stdout w.heap
    rcases hw : runCalls javaEnv cs w with ⟨out, heap⟩
    rw [hw] at hh this
    simp only at hh this
    subst hh
    exact this

theorem entry_points_independent_witness :
    (Java_com_matthijs_kropholler_jniarticle_MyNativeObject_manipulateData rejectingEnv
        (some 0) (some 1)
        (runCalls rejectingEnv
          [NativeCall.printToStdOut (some 0),
            NativeCall.addNumbers (some 0) ⟨2147483647, by decide⟩ ⟨1, by decide⟩]
          ⟨[], [JavaObject.MyNativeObject, JavaObject.DataObject (some [0x4A])]⟩)).world.heap =
      (Java_com_matthijs_kropholler_jniarticle_MyNativeObject_manipulateData rejectingEnv
        (some 0) (some 1)
        ⟨[], [JavaObject.MyNativeObject, JavaObject.DataObject (some [0x4A])]⟩).world.heap ∧
    (Java_com_matthijs_kropholler_jniarticle_MyNativeObject_manipulateData rejectingEnv
        (some 0) (some 1)
        (runCalls rejectingEnv
          [NativeCall.printToStdOut (some 0),
            NativeCall.addNumbers (some 0) ⟨2147483647, by decide⟩ ⟨1, by decide⟩]
          ⟨[], [JavaObject.MyNativeObject, JavaObject.DataObject (some [0x4A])]⟩)).trace =
      (Java_com_matthijs_kropholler_jniarticle_MyNativeObject_manipulateData rejectingEnv
        (some 0) (some 1)
        ⟨[], [JavaObject.MyNativeObject, JavaObject.DataObject (some [0x4A])]⟩).trace ∧
    (Java_com_matthijs_kropholler_jniarticle_MyNativeObject_manipulateData rejectingEnv
        (some 0) (some 1)
        (runCalls rejectingEnv
          [NativeCall.printToStdOut (some 0),
            NativeCall.addNumbers (some 0) ⟨2147483647, by decide⟩ ⟨1, by decide⟩]
          ⟨[], [JavaObject.MyNativeObject, JavaObject.DataObject (some [0x4A])]⟩)).fault =
      (Java_com_matthijs_kropholler_jniarticle_MyNativeObject_manipulateData rejectingEnv
        (some 0) (some 1)
        ⟨[], [JavaObject.MyNativeObject, JavaObject.DataObject (some [0x4A])]⟩).fault :=
  entry_points_independent.2.2.2.2.2 rejectingEnv
    [NativeCall.printToStdOut (some 0),
      NativeCall.addNumbers (some 0) ⟨2147483647, by decide⟩ ⟨1, by decide⟩]
    (some 0) (some 1) ⟨[], [JavaObject.MyNativeObject, JavaObject.DataObject (some [0x4A])]⟩
    (by
      intro c hc
      simp only [List.mem_cons, List.mem_singleton, List.not_mem_nil, or_false] at hc
      rcases hc with rfl | rfl <;> intro t' d' h <;> cases h)
